import Mathlib

set_option autoImplicit false

/-!
Shallow embedding of the drag-and-drop task board's core logic:
the observable project registry (`src/src/state/project-state.ts`),
the `validate` predicate and the drag handlers (`src/unnamed/part_000`).
Effects are made explicit: a mutating registry operation returns the new
state together with the list of notification rounds it performed, where a
round records, in registration order, each listener paired with the
snapshot it was handed.
-/

namespace DragDrop

/-- Modelled from the spec: the `ProjectStatus` enum (`Active | Finished`)
lives in `models/project`, a file absent from `src/`; spec section 3 fixes the
two values. -/
inductive ProjectStatus where
  | active
  | finished
deriving DecidableEq, Repr

/-- Modelled from the spec: the `Project` class lives in `models/project`,
absent from `src/`; spec section 3 fixes its fields (`id`, `title`,
`description`, `people`, `status`), and the constructor call in
`ProjectState.addProject` supplies them in this order. `people` is kept as an
integer (every value the program stores in it is an integral JS number). -/
structure Project where
  id : String
  title : String
  description : String
  people : Int
  status : ProjectStatus
deriving DecidableEq, Repr

/-- The fields of a project other than `status`, used to state frame
conditions of `moveProject`. -/
def projectCore (p : Project) : String × String × String × Int :=
  (p.id, p.title, p.description, p.people)

/-- State of the `ProjectState` singleton: its `projects` array and its
`listeners` array (`State.listeners`). Listeners are kept abstract as labels
of an arbitrary type `L`; invoking a listener is recorded as an event rather
than executed. -/
structure RegState (L : Type) where
  projects : List Project
  listeners : List L
deriving DecidableEq

/-- One notification round (`ProjectState.updateListeners`): every registered
listener, in registration order, paired with the snapshot it receives — the
`this.projects.slice()` copy, which as a value equals the current sequence. -/
def broadcastCalls {L : Type} (listeners : List L) (snapshot : List Project) :
    List (L × List Project) :=
  listeners.map fun fn => (fn, snapshot)

/-- Embedding of `ProjectState.addProject`. `Math.random().toString()` is an
effect of the environment, so the generated id `newId` is passed in as an
input (the id oracle's next value). Returns the new state and the performed
notification rounds. -/
def addProject {L : Type} (s : RegState L) (newId title description : String)
    (numOfPeople : Int) : RegState L × List (List (L × List Project)) :=
  let newProject : Project :=
    { id := newId, title := title, description := description,
      people := numOfPeople, status := ProjectStatus.active }
  let s' : RegState L := { s with projects := s.projects ++ [newProject] }
  (s', [broadcastCalls s'.listeners s'.projects])

/-- Helper for `moveProject`: the in-place mutation `project.status =
newStatus` of the object returned by `find` updates, in the array, exactly
the first project whose id matches. -/
def setStatusOfFirst : List Project → String → ProjectStatus → List Project
  | [], _, _ => []
  | p :: ps, projectId, newStatus =>
    if p.id == projectId then { p with status := newStatus } :: ps
    else p :: setStatusOfFirst ps projectId newStatus

/-- Embedding of `ProjectState.moveProject`: find the first project with the
given id; if present and its status differs, update that project's status and
run one notification round; otherwise do nothing. -/
def moveProject {L : Type} (s : RegState L) (projectId : String)
    (newStatus : ProjectStatus) : RegState L × List (List (L × List Project)) :=
  match s.projects.find? (fun project => project.id == projectId) with
  | some project =>
    if project.status ≠ newStatus then
      let s' : RegState L :=
        { s with projects := setStatusOfFirst s.projects projectId newStatus }
      (s', [broadcastCalls s'.listeners s'.projects])
    else (s, [])
  | none => (s, [])

/-- Arguments of one `addProject` call, the generated id included (the id is
what `Math.random().toString()` returned for this call). -/
structure AddCall where
  newId : String
  title : String
  description : String
  numOfPeople : Int
deriving DecidableEq, Repr

/-- A project as `addProject` constructs it from one call's arguments. -/
def AddCall.toProject (c : AddCall) : Project :=
  { id := c.newId, title := c.title, description := c.description,
    people := c.numOfPeople, status := ProjectStatus.active }

/-- Runs a sequence of `addProject` calls; returns the final state and, per
call in order, the snapshot that call's notification round handed to the
listeners (the argument of `updateListeners`'s `slice`). -/
def runAddProjects {L : Type} (s : RegState L) :
    List AddCall → RegState L × List (List Project)
  | [] => (s, [])
  | c :: cs =>
    let step := addProject s c.newId c.title c.description c.numOfPeople
    let rest := runAddProjects step.1 cs
    (rest.1, step.1.projects :: rest.2)

/-! Embedding of the `validate` function (`src/unnamed/part_000`, lines
132-171). JS values flowing into `validate` in this program are strings or
numbers; numbers are embedded as `NaN`, the two infinities, or an integer
(every number the program stores is integral or `NaN`; a fractional double's
decimal string would likewise be a non-blank string, which is all the claims
use of the representation). -/

/-- Decimal digit character for `d` taken modulo 10, as used by the JS
number-to-string conversion for integral values. -/
def digitChar (d : Nat) : Char :=
  Char.ofNat (48 + d % 10)

/-- Decimal digits of `n`, least significant first. -/
def natToCharsRev : Nat → List Char
  | 0 => []
  | n + 1 => digitChar ((n + 1) % 10) :: natToCharsRev ((n + 1) / 10)
decreasing_by exact Nat.div_lt_self (Nat.succ_pos n) (by decide)

/-- Decimal string of a natural number, as `Number.prototype.toString` prints
integral values. -/
def natToString (n : Nat) : String :=
  if n = 0 then "0" else String.mk (natToCharsRev n).reverse

/-- A JS number as this program uses them: `NaN`, an infinity, or an integral
finite value. -/
inductive JSNum where
  | nan
  | posInf
  | negInf
  | finite (i : Int)
deriving DecidableEq, Repr

/-- JS `a <= b` on numbers: false whenever either side is `NaN`, the usual
order otherwise. -/
def JSNum.le : JSNum → JSNum → Bool
  | .nan, _ => false
  | _, .nan => false
  | .negInf, _ => true
  | _, .posInf => true
  | .posInf, _ => false
  | .finite _, .negInf => false
  | .finite a, .finite b => a ≤ b

/-- JS `toString` of a number. -/
def JSNum.toStr : JSNum → String
  | .nan => "NaN"
  | .posInf => "Infinity"
  | .negInf => "-Infinity"
  | .finite i => if i < 0 then "-" ++ natToString i.natAbs else natToString i.natAbs

/-- A value a `Validatable` descriptor can carry: `value: string | number`. -/
inductive JSValue where
  | str (s : String)
  | num (n : JSNum)
deriving DecidableEq, Repr

/-- JS `value.toString()`: identity on strings, number printing on numbers. -/
def JSValue.toStr : JSValue → String
  | .str s => s
  | .num n => n.toStr

/-- Whitespace characters stripped by JS `String.prototype.trim`. -/
def isJsSpace (c : Char) : Bool :=
  ([' ', '\t', '\n', '\r', '\x0b', '\x0c', ' ', '﻿',
    ' ', ' ', ' ', ' ', ' ', ' ', ' ',
    ' ', ' ', ' ', ' ', ' ', ' ', ' ',
    ' ', ' ', '　'] : List Char).contains c

/-- JS `String.prototype.trim`: drop whitespace from both ends. -/
def jsTrim (s : String) : String :=
  String.mk (((s.data.dropWhile isJsSpace).reverse.dropWhile isJsSpace).reverse)

/-- The `Validatable` descriptor type: a value plus five independently
optional constraints. An absent field is `none` (JS `undefined`). -/
structure Validatable where
  value : JSValue
  required : Option Bool := none
  minLength : Option Int := none
  maxLength : Option Int := none
  min : Option JSNum := none
  max : Option JSNum := none
deriving DecidableEq, Repr

/-- JS truthiness of an optional boolean (`if (validatableInput.required)`). -/
def isTruthy : Option Bool → Bool
  | some b => b
  | none => false

/-- Embedding of `validate`: an `isValid` accumulator, one guarded clause per
constraint in source order. `x != null` on an optional field is `Option.isSome`
(matched structurally), `typeof value === "string"` / `"number"` is a match on
the `JSValue` constructor, and JS `>=`/`<=` on numbers is `JSNum.le`. -/
def validate (validatableInput : Validatable) : Bool :=
  let isValid := true
  let isValid :=
    if isTruthy validatableInput.required then
      isValid && ((jsTrim validatableInput.value.toStr).data.length != 0)
    else isValid
  let isValid :=
    match validatableInput.minLength, validatableInput.value with
    | some minLength, .str s => isValid && ((s.data.length : Int) ≥ minLength)
    | _, _ => isValid
  let isValid :=
    match validatableInput.maxLength, validatableInput.value with
    | some maxLength, .str s => isValid && ((s.data.length : Int) ≤ maxLength)
    | _, _ => isValid
  let isValid :=
    match validatableInput.min, validatableInput.value with
    | some mn, .num n => isValid && JSNum.le mn n
    | _, _ => isValid
  let isValid :=
    match validatableInput.max, validatableInput.value with
    | some mx, .num n => isValid && JSNum.le n mx
    | _, _ => isValid
  isValid

/-- The rules of spec section 4.2 read as one conjunction: the `required`
clause (present and set) demands a non-blank trimmed string representation. -/
def requiredPass (v : Validatable) : Bool :=
  match v.required with
  | some true => (jsTrim v.value.toStr).data.length != 0
  | _ => true

/-- The `minLength` clause: enforced only on textual values, raw length. -/
def minLengthPass (v : Validatable) : Bool :=
  match v.minLength, v.value with
  | some minLength, .str s => (s.data.length : Int) ≥ minLength
  | _, _ => true

/-- The `maxLength` clause: enforced only on textual values, raw length. -/
def maxLengthPass (v : Validatable) : Bool :=
  match v.maxLength, v.value with
  | some maxLength, .str s => (s.data.length : Int) ≤ maxLength
  | _, _ => true

/-- The `min` clause: enforced only on numeric values, inclusive bound. -/
def minPass (v : Validatable) : Bool :=
  match v.min, v.value with
  | some mn, .num n => JSNum.le mn n
  | _, _ => true

/-- The `max` clause: enforced only on numeric values, inclusive bound. -/
def maxPass (v : Validatable) : Bool :=
  match v.max, v.value with
  | some mx, .num n => JSNum.le n mx
  | _, _ => true

/-! Embedding of the drag handlers (`src/unnamed/part_000`: `ProjectItem.
dragStartHandler` lines 291-295, `ProjectList.dragOverHandler` lines
356-364). A `DataTransfer` is the transfer channel: its declared `types`,
its format-keyed data store written by `setData`, and `effectAllowed`. -/

/-- The drag event's transfer channel, as the handlers use it. -/
structure DataTransfer where
  types : List String := []
  store : List (String × String) := []
  effectAllowed : Option String := none
deriving DecidableEq, Repr

/-- JS `DataTransfer.setData(format, data)`: set the payload for a format,
replacing any previous payload of that format. -/
def DataTransfer.setData (dt : DataTransfer) (format data : String) : DataTransfer :=
  { dt with store := (format, data) :: dt.store.filter (fun kv => kv.1 != format) }

/-- JS `DataTransfer.getData(format)`: the stored payload for the format, or
the empty string when none is stored. -/
def DataTransfer.getData (dt : DataTransfer) (format : String) : String :=
  match dt.store.find? (fun kv => kv.1 == format) with
  | some kv => kv.2
  | none => ""

/-- A JS runtime error; `typeError` is what dereferencing a null
`dataTransfer` through the non-null assertion `!` raises. -/
inductive JsError where
  | typeError
deriving DecidableEq, Repr

/-- Embedding of `ProjectItem.dragStartHandler` for the card of the project
with id `projectId`: `event.dataTransfer!.setData("text/plain", id)` then
`event.dataTransfer!.effectAllowed = "move"`. The `!` is only a compile-time
assertion: at runtime, a null `dataTransfer` makes the member access throw a
`TypeError`, modelled as `Except.error`. -/
def dragStartHandler (projectId : String) (dataTransfer : Option DataTransfer) :
    Except JsError DataTransfer :=
  match dataTransfer with
  | none => Except.error JsError.typeError
  | some dt => Except.ok { dt.setData "text/plain" projectId with effectAllowed := some "move" }

/-- JS `classList.add(c)`: append the class unless already present. -/
def classListAdd (classes : List String) (c : String) : List String :=
  if classes.contains c then classes else classes ++ [c]

/-- Result of a drag-over event on a list: whether `preventDefault` was
called, and the target list element's class list afterwards. -/
structure DragOverResult where
  preventedDefault : Bool
  classes : List String
deriving DecidableEq, Repr

/-- Embedding of `ProjectList.dragOverHandler`: if a transfer channel is
present and its first declared type (`types[0]`, `none` on an empty array)
is exactly `"text/plain"`, prevent the default and add the `"droppable"`
class; otherwise change nothing. -/
def dragOverHandler (dataTransfer : Option DataTransfer) (classes : List String) :
    DragOverResult :=
  match dataTransfer with
  | some dt =>
    if dt.types.head? == some "text/plain" then
      { preventedDefault := true, classes := classListAdd classes "droppable" }
    else { preventedDefault := false, classes := classes }
  | none => { preventedDefault := false, classes := classes }

/-! Heap model for the defensive-copy behavior of `updateListeners`: JS
arrays are heap references, `this.projects.slice()` allocates a fresh array
with the same contents, and each listener call receives its own fresh
reference. Mutation through a reference is `Heap.write`. -/

/-- A heap of project arrays; a reference is an index into `cells`. -/
structure Heap where
  cells : List (List Project)
deriving DecidableEq, Repr

/-- Contents of the array behind reference `r`. -/
def Heap.read (h : Heap) (r : Nat) : List Project :=
  h.cells.getD r []

/-- Mutation of the array behind reference `r` (any array mutation is
subsumed by replacing the contents wholesale). -/
def Heap.write (h : Heap) (r : Nat) (v : List Project) : Heap :=
  Heap.mk (h.cells.set r v)

/-- Allocation of a fresh array with contents `v`; returns the new heap and
the fresh reference. -/
def Heap.alloc (h : Heap) (v : List Project) : Heap × Nat :=
  (Heap.mk (h.cells ++ [v]), h.cells.length)

/-- Embedding of `updateListeners` at the heap level: for each listener in
registration order, allocate a fresh `slice()` copy of the registry's array
(reference `src`) and hand that listener the fresh reference. Returns the
final heap and the calls made. -/
def updateListenersRefs {L : Type} (h : Heap) (src : Nat) :
    List L → Heap × List (L × Nat)
  | [] => (h, [])
  | fn :: fns =>
    let slice := h.alloc (h.read src)
    let rest := updateListenersRefs slice.1 src fns
    (rest.1, (fn, slice.2) :: rest.2)

/-! Helper lemmas. -/

theorem setStatusOfFirst_map_core (ps : List Project) (projectId : String)
    (newStatus : ProjectStatus) :
    (setStatusOfFirst ps projectId newStatus).map projectCore = ps.map projectCore := by
  induction ps with
  | nil => rfl
  | cons p ps ih =>
    by_cases hp : (p.id == projectId) = true
    · simp [setStatusOfFirst, hp, projectCore]
    · simp only [setStatusOfFirst, hp, Bool.false_eq_true, if_false, List.map_cons, ih]

/-- Sample projects used by concrete witnesses. -/
def demoProjectA : Project :=
  { id := "a", title := "T", description := "first demo", people := 3,
    status := ProjectStatus.active }

def demoProjectB : Project :=
  { id := "b", title := "U", description := "second demo", people := 4,
    status := ProjectStatus.active }

/-- C2: `addProject(title, description, peopleCount)` builds the new project
with status `Active` and exactly the given fields, appends it at the end of
the sequence (all previously stored projects keep their position, being the
left factor of the append), and performs exactly one notification round in
which every registered listener, in registration order, is invoked once with
the full post-append sequence. -/
theorem addProject_appends_and_notifies {L : Type} (s : RegState L)
    (newId title description : String) (numOfPeople : Int) :
    (addProject s newId title description numOfPeople).1.projects
      = s.projects ++
        [{ id := newId, title := title, description := description,
           people := numOfPeople, status := ProjectStatus.active }] ∧
    (addProject s newId title description numOfPeople).1.listeners = s.listeners ∧
    (addProject s newId title description numOfPeople).2
      = [s.listeners.map (fun fn =>
          (fn, s.projects ++
            [{ id := newId, title := title, description := description,
               people := numOfPeople, status := ProjectStatus.active }]))] :=
  ⟨rfl, rfl, rfl⟩

/-- C9: `moveProject` never changes the length or the order of the project
sequence, and every project's id, title, description and people are the same
before and after the call (only a status can change); the listener list is
untouched as well. -/
theorem moveProject_preserves_core {L : Type} (s : RegState L) (projectId : String)
    (newStatus : ProjectStatus) :
    ((moveProject s projectId newStatus).1.projects).map projectCore
      = s.projects.map projectCore ∧
    ((moveProject s projectId newStatus).1.projects).length = s.projects.length ∧
    (moveProject s projectId newStatus).1.listeners = s.listeners := by
  have key : ((moveProject s projectId newStatus).1.projects).map projectCore
      = s.projects.map projectCore ∧
      (moveProject s projectId newStatus).1.listeners = s.listeners := by
    unfold moveProject
    cases s.projects.find? (fun project => project.id == projectId) with
    | none => exact ⟨rfl, rfl⟩
    | some project =>
      by_cases hst : project.status ≠ newStatus
      · simp [hst, setStatusOfFirst_map_core]
      · simp [hst]
  refine ⟨key.1, ?_, key.2⟩
  have := congrArg List.length key.1
  simpa using this

/-- C4: `moveProject` is a silent no-op (state unchanged, no listener
invoked) whenever no project has the id or the first project with the id
already has the target status; and a notification round happens if and only
if neither no-op condition holds. The no-op condition is
`(find? ...).all (status == newStatus)`: true when `find?` comes up empty or
finds an already-moved project. -/
theorem moveProject_noop_iff {L : Type} (s : RegState L) (projectId : String)
    (newStatus : ProjectStatus) :
    ((s.projects.find? (fun p => p.id == projectId)).all
        (fun p => p.status == newStatus) = true →
      (moveProject s projectId newStatus).1 = s ∧
      (moveProject s projectId newStatus).2 = []) ∧
    ((moveProject s projectId newStatus).2 = [] ↔
      (s.projects.find? (fun p => p.id == projectId)).all
        (fun p => p.status == newStatus) = true) := by
  unfold moveProject
  cases s.projects.find? (fun p => p.id == projectId) with
  | none => simp [Option.all]
  | some project =>
    by_cases hst : project.status = newStatus
    · simp [hst, Option.all]
    · simp [hst, Option.all]

/-- Closed instance for `moveProject_noop_iff`: a move to an unknown id
leaves the one-project registry untouched and performs no notification. -/
theorem moveProject_noop_iff_witness :
    ((RegState.mk [demoProjectA] ([7] : List Nat)).projects.find?
        (fun p => p.id == "zzz")).all (fun p => p.status == ProjectStatus.finished)
      = true ∧
    ((moveProject (RegState.mk [demoProjectA] ([7] : List Nat)) "zzz"
        ProjectStatus.finished).1 = RegState.mk [demoProjectA] [7] ∧
     (moveProject (RegState.mk [demoProjectA] ([7] : List Nat)) "zzz"
        ProjectStatus.finished).2 = []) :=
  ⟨by decide,
   (moveProject_noop_iff (RegState.mk [demoProjectA] [7]) "zzz"
      ProjectStatus.finished).1 (by decide)⟩

/-- C8 counterexample: with no transfer channel available, the drag-start
handler is not a silent no-op — the non-null assertion on
`event.dataTransfer!` dereferences null and the handler throws a
`TypeError`. -/
theorem dragStartHandler_no_channel_throws :
    dragStartHandler "p1" none = Except.error JsError.typeError := rfl

/-- C8 (amended): when a transfer channel is present, the drag-start handler
attaches exactly the dragged project's id as the plain-text payload and marks
the allowed transfer effect as "move" (leaving the channel's declared types
as they were); when no transfer channel is available the handler throws a
`TypeError` instead of being a silent no-op. -/
theorem dragStartHandler_amended (projectId : String) :
    (∀ dt res : DataTransfer,
      dragStartHandler projectId (some dt) = Except.ok res →
        res.getData "text/plain" = projectId ∧
        res.effectAllowed = some "move" ∧
        res.types = dt.types) ∧
    dragStartHandler projectId none = Except.error JsError.typeError := by
  constructor
  · intro dt res h
    have hres : res
        = { dt.setData "text/plain" projectId with effectAllowed := some "move" } := by
      cases h
      rfl
    subst hres
    refine ⟨?_, rfl, rfl⟩
    simp [DataTransfer.getData, DataTransfer.setData, List.find?]
  · rfl

/-- Closed instance for `dragStartHandler_amended`: starting a drag of
project "p1" over an empty channel stores the id under "text/plain" and sets
the move effect. -/
theorem dragStartHandler_amended_witness :
    (DataTransfer.mk [] [("text/plain", "p1")] (some "move")).getData "text/plain"
      = "p1" ∧
    (DataTransfer.mk [] [("text/plain", "p1")] (some "move")).effectAllowed
      = some "move" ∧
    (DataTransfer.mk [] [("text/plain", "p1")] (some "move")).types
      = (DataTransfer.mk [] [] none).types :=
  (dragStartHandler_amended "p1").1 (DataTransfer.mk [] [] none)
    (DataTransfer.mk [] [("text/plain", "p1")] (some "move")) rfl

/-- Membership in the class list after `classList.add`. -/
theorem mem_classListAdd (classes : List String) (c : String) :
    c ∈ classListAdd classes c := by
  by_cases h : c ∈ classes
  · simp [classListAdd, h]
  · simp [classListAdd, h]

/-- C7: a drag-over event is accepted — default prevented and the
"droppable" marker class added — exactly when a transfer channel is present
and its first declared payload type is `"text/plain"`; for any other
declared payload (for example `"Files"`) nothing is prevented and the class
list is unchanged. -/
theorem dragOverHandler_accepts_iff (dataTransfer : Option DataTransfer)
    (classes : List String) :
    (dataTransfer.bind (fun dt => dt.types.head?) = some "text/plain" →
      dragOverHandler dataTransfer classes
        = { preventedDefault := true, classes := classListAdd classes "droppable" } ∧
      "droppable" ∈ (dragOverHandler dataTransfer classes).classes) ∧
    (dataTransfer.bind (fun dt => dt.types.head?) ≠ some "text/plain" →
      dragOverHandler dataTransfer classes
        = { preventedDefault := false, classes := classes }) ∧
    ((dragOverHandler dataTransfer classes).preventedDefault = true ↔
      dataTransfer.bind (fun dt => dt.types.head?) = some "text/plain") := by
  cases dataTransfer with
  | none => simp [dragOverHandler]
  | some dt =>
    by_cases h : dt.types.head? = some "text/plain"
    · simp [dragOverHandler, h, mem_classListAdd]
    · simp [dragOverHandler, h]

/-- Closed instance for `dragOverHandler_accepts_iff`: a channel declaring
`"text/plain"` is accepted, the default is prevented and "droppable" is
added to the class list. -/
theorem dragOverHandler_accepts_iff_witness :
    (some (DataTransfer.mk ["text/plain"] [] none)).bind (fun dt => dt.types.head?)
      = some "text/plain" ∧
    (dragOverHandler (some (DataTransfer.mk ["text/plain"] [] none)) ["x"]
      = { preventedDefault := true, classes := classListAdd ["x"] "droppable" } ∧
     "droppable" ∈ (dragOverHandler (some (DataTransfer.mk ["text/plain"] [] none))
        ["x"]).classes) :=
  ⟨by decide,
   (dragOverHandler_accepts_iff (some (DataTransfer.mk ["text/plain"] [] none))
      ["x"]).1 (by decide)⟩

/-- First-match search in a split list whose prefix contains no match. -/
theorem find?_append_first {α : Type} (pre post : List α) (a : α) (f : α → Bool)
    (hpre : ∀ q ∈ pre, f q = false) (ha : f a = true) :
    (pre ++ a :: post).find? f = some a := by
  induction pre with
  | nil => simp [List.find?_cons, ha]
  | cons q qs ih =>
    have hq : f q = false := hpre q (List.mem_cons_self q qs)
    rw [List.cons_append, List.find?_cons, hq]
    exact ih fun x hx => hpre x (List.mem_cons_of_mem _ hx)

/-- The in-place status update in a split list whose prefix contains no
match touches exactly the matched element. -/
theorem setStatusOfFirst_append (pre post : List Project) (project : Project)
    (projectId : String) (newStatus : ProjectStatus)
    (hpre : ∀ q ∈ pre, (q.id == projectId) = false)
    (hp : (project.id == projectId) = true) :
    setStatusOfFirst (pre ++ project :: post) projectId newStatus
      = pre ++ { project with status := newStatus } :: post := by
  induction pre with
  | nil => simp [setStatusOfFirst, hp]
  | cons q qs ih =>
    have hq : (q.id == projectId) = false := hpre q (List.mem_cons_self q qs)
    rw [List.cons_append, setStatusOfFirst, hq]
    simp only [Bool.false_eq_true, if_false, List.cons_append, List.cons.injEq, true_and]
    exact ih fun x hx => hpre x (List.mem_cons_of_mem _ hx)

/-- C3: when the registry's sequence splits as `pre ++ project :: post` with
no project of the given id in `pre` (so `project` is the first match) and
`project`'s status differs from the target, `moveProject` performs exactly
one notification round — every listener invoked exactly once more, via
`broadcastCalls` — and in the emitted snapshot the matched project carries
the new status while every project of `pre` and `post` is unchanged in all
fields. -/
theorem moveProject_found_differs {L : Type} (s : RegState L) (pre post : List Project)
    (project : Project) (projectId : String) (newStatus : ProjectStatus)
    (hsplit : s.projects = pre ++ project :: post)
    (hpre : ∀ q ∈ pre, (q.id == projectId) = false)
    (hid : project.id = projectId)
    (hst : project.status ≠ newStatus) :
    (moveProject s projectId newStatus).1.projects
      = pre ++ { project with status := newStatus } :: post ∧
    (moveProject s projectId newStatus).1.listeners = s.listeners ∧
    (moveProject s projectId newStatus).2
      = [broadcastCalls s.listeners
          (pre ++ { project with status := newStatus } :: post)] := by
  have hp : (project.id == projectId) = true := by simp [hid]
  have hfind : s.projects.find? (fun p => p.id == projectId) = some project := by
    rw [hsplit]
    exact find?_append_first pre post project _ hpre hp
  have hset : setStatusOfFirst s.projects projectId newStatus
      = pre ++ { project with status := newStatus } :: post := by
    rw [hsplit]
    exact setStatusOfFirst_append pre post project projectId newStatus hpre hp
  unfold moveProject
  rw [hfind]
  simp [hst, hset]

/-- Closed instance for `moveProject_found_differs`: in a two-project
registry, moving project "b" to `finished` emits one round whose snapshot
has "b" finished and "a" untouched. -/
theorem moveProject_found_differs_witness :
    (moveProject (RegState.mk [demoProjectA, demoProjectB] ([7] : List Nat)) "b"
        ProjectStatus.finished).1.projects
      = [demoProjectA, { demoProjectB with status := ProjectStatus.finished }] ∧
    (moveProject (RegState.mk [demoProjectA, demoProjectB] ([7] : List Nat)) "b"
        ProjectStatus.finished).1.listeners = [7] ∧
    (moveProject (RegState.mk [demoProjectA, demoProjectB] ([7] : List Nat)) "b"
        ProjectStatus.finished).2
      = [broadcastCalls [7]
          [demoProjectA, { demoProjectB with status := ProjectStatus.finished }]] :=
  moveProject_found_differs (RegState.mk [demoProjectA, demoProjectB] [7])
    [demoProjectA] [] demoProjectB "b" ProjectStatus.finished rfl
    (by decide) rfl (by decide)

/-- Running a list of `addProject` calls appends the corresponding projects
in call order and leaves the listener list alone. -/
theorem runAddProjects_state {L : Type} (s : RegState L) (calls : List AddCall) :
    (runAddProjects s calls).1.projects = s.projects ++ calls.map AddCall.toProject ∧
    (runAddProjects s calls).1.listeners = s.listeners := by
  induction calls generalizing s with
  | nil => simp [runAddProjects]
  | cons c cs ih =>
    have step := ih (addProject s c.newId c.title c.description c.numOfPeople).1
    simp only [runAddProjects]
    refine ⟨?_, ?_⟩
    · rw [step.1]
      simp [addProject, AddCall.toProject, List.append_assoc]
    · rw [step.2]
      simp [addProject]

/-- The snapshot emitted by the k-th call of a run grows the initial
sequence's length by k+1. -/
theorem runAddProjects_snap_length {L : Type} (s : RegState L) (calls : List AddCall) :
    (runAddProjects s calls).2.length = calls.length ∧
    ∀ k (hk : k < (runAddProjects s calls).2.length),
      ((runAddProjects s calls).2.get ⟨k, hk⟩).length = s.projects.length + k + 1 := by
  induction calls generalizing s with
  | nil => simp [runAddProjects]
  | cons c cs ih =>
    have step := ih (addProject s c.newId c.title c.description c.numOfPeople).1
    simp only [runAddProjects]
    refine ⟨?_, ?_⟩
    · simp [step.1]
    · intro k hk
      cases k with
      | zero => simp [addProject]
      | succ k =>
        have hk' : k < (runAddProjects
            (addProject s c.newId c.title c.description c.numOfPeople).1 cs).2.length := by
          simpa using hk
        have h2 := step.2 k hk'
        show ((runAddProjects _ cs).2.get ⟨k, hk'⟩).length = _
        rw [h2]
        simp [addProject]
        omega

/-- If the ids of the pending calls are mutually distinct, distinct from each
other's and absent from the current sequence (whose ids are themselves
distinct), then every snapshot emitted by the run has pairwise-distinct
ids. -/
theorem runAddProjects_snap_nodup {L : Type} (s : RegState L) (calls : List AddCall)
    (hs : (s.projects.map Project.id).Nodup)
    (hc : (calls.map AddCall.newId).Nodup)
    (hdisj : ∀ c ∈ calls, c.newId ∉ s.projects.map Project.id) :
    ∀ snap ∈ (runAddProjects s calls).2, (snap.map Project.id).Nodup := by
  induction calls generalizing s with
  | nil => simp [runAddProjects]
  | cons c cs ih =>
    have hnotin : c.newId ∉ s.projects.map Project.id :=
      hdisj c (List.mem_cons_self c cs)
    have hcons : (c.newId :: cs.map AddCall.newId).Nodup := by simpa using hc
    have hc' : (cs.map AddCall.newId).Nodup := hcons.of_cons
    have hcnot : c.newId ∉ cs.map AddCall.newId := (List.nodup_cons.mp hcons).1
    have hhead : ((s.projects ++ [AddCall.toProject c]).map Project.id).Nodup := by
      rw [List.map_append, List.nodup_append]
      refine ⟨hs, by simp, ?_⟩
      intro x hx hx2
      simp [AddCall.toProject] at hx2
      subst hx2
      exact hnotin hx
    intro snap hsnap
    rcases List.mem_cons.mp hsnap with rfl | h
    · exact hhead
    · refine ih { s with projects := s.projects ++ [AddCall.toProject c] }
        hhead hc' ?_ snap h
      intro c' hc'mem
      have h1 : c'.newId ∉ s.projects.map Project.id :=
        hdisj c' (List.mem_cons_of_mem _ hc'mem)
      have h2 : c'.newId ≠ c.newId := by
        intro he
        exact hcnot (he ▸ List.mem_map_of_mem AddCall.newId hc'mem)
      simp only [List.map_append]
      rw [List.mem_append]
      rintro (hx | hx)
      · exact h1 hx
      · simp [AddCall.toProject] at hx
        exact h2 hx

/-- C1 counterexample: the id of a new project is `Math.random().toString()`,
an environment input that nothing prevents from repeating. Starting from the
empty registry, two `addProject` calls whose generated ids are both "0.5"
(a value `Math.random` can return twice) yield a second emitted snapshot
whose two projects share an id, so the snapshots do not always have
pairwise-distinct ids. -/
theorem addProject_snapshots_counterexample :
    ¬ (((runAddProjects (RegState.mk [] ([] : List Unit))
          [AddCall.mk "0.5" "T" "d" 1, AddCall.mk "0.5" "U" "e" 2]).2.getD 1 []).map
        Project.id).Nodup := by decide

/-- C1 (amended): for every sequence of `addProject` calls on the initially
empty registry, the snapshot emitted after the n-th call has length n; and
provided the ids generated for the calls are pairwise distinct (which the
`Math.random` id source makes overwhelmingly likely but does not guarantee),
every emitted snapshot's projects have pairwise-distinct ids. -/
theorem addProject_snapshots_amended {L : Type} (listeners : List L)
    (calls : List AddCall) :
    (runAddProjects (RegState.mk [] listeners) calls).2.length = calls.length ∧
    (∀ k (hk : k < (runAddProjects (RegState.mk [] listeners) calls).2.length),
      ((runAddProjects (RegState.mk [] listeners) calls).2.get ⟨k, hk⟩).length
        = k + 1) ∧
    ((calls.map AddCall.newId).Nodup →
      ∀ snap ∈ (runAddProjects (RegState.mk [] listeners) calls).2,
        (snap.map Project.id).Nodup) := by
  have hlen := runAddProjects_snap_length (RegState.mk [] listeners) calls
  refine ⟨hlen.1, ?_, ?_⟩
  · intro k hk
    have := hlen.2 k hk
    simpa using this
  · intro hids
    exact runAddProjects_snap_nodup (RegState.mk [] listeners) calls (by simp)
      hids (by simp)

/-- Closed instance for `addProject_snapshots_amended`: two calls with the
distinct generated ids "a" and "b" emit two snapshots, and the second
snapshot's ids are pairwise distinct. -/
theorem addProject_snapshots_amended_witness :
    (([AddCall.mk "a" "T" "d" 1, AddCall.mk "b" "U" "e" 2].map AddCall.newId).Nodup) ∧
    (runAddProjects (RegState.mk [] ([] : List Unit))
        [AddCall.mk "a" "T" "d" 1, AddCall.mk "b" "U" "e" 2]).2.length = 2 ∧
    (([Project.mk "a" "T" "d" 1 ProjectStatus.active,
       Project.mk "b" "U" "e" 2 ProjectStatus.active].map Project.id).Nodup) :=
  ⟨by decide,
   (addProject_snapshots_amended ([] : List Unit)
      [AddCall.mk "a" "T" "d" 1, AddCall.mk "b" "U" "e" 2]).1,
   (addProject_snapshots_amended ([] : List Unit)
      [AddCall.mk "a" "T" "d" 1, AddCall.mk "b" "U" "e" 2]).2.2 (by decide)
     [Project.mk "a" "T" "d" 1 ProjectStatus.active,
      Project.mk "b" "U" "e" 2 ProjectStatus.active] (by decide)⟩

/-- C6: `validate` returns true exactly when every constraint present in the
descriptor passes — the conjunction of the five independent clauses of spec
section 4.2 — and on the four concrete descriptors of the spec it returns
false, false, false and true respectively. -/
theorem validate_conjunction :
    (∀ v : Validatable,
      validate v
        = (requiredPass v && minLengthPass v && maxLengthPass v &&
           minPass v && maxPass v)) ∧
    validate { value := JSValue.str "", required := some true } = false ∧
    validate { value := JSValue.str "ab", minLength := some 5 } = false ∧
    validate { value := JSValue.num (JSNum.finite 11), min := some (JSNum.finite 1),
               max := some (JSNum.finite 10) } = false ∧
    validate { value := JSValue.str "ok", required := some true } = true := by
  refine ⟨?_, by decide, by decide, by decide, by decide⟩
  intro v
  obtain ⟨value, req, minL, maxL, mn, mx⟩ := v
  unfold validate requiredPass minLengthPass maxLengthPass minPass maxPass isTruthy
  rcases req with _ | b
  · cases minL <;> cases maxL <;> cases mn <;> cases mx <;> cases value <;>
      simp [Bool.and_assoc]
  · cases b <;> cases minL <;> cases maxL <;> cases mn <;> cases mx <;> cases value <;>
      simp [Bool.and_assoc]

/-- Decimal digit characters are not whitespace. -/
theorem digitChar_not_space (d : Nat) : isJsSpace (digitChar d) = false := by
  have h : d % 10 < 10 := Nat.mod_lt _ (by decide)
  unfold digitChar
  set m := d % 10 with hm
  interval_cases m <;> decide

/-- No character of a decimal digit string is whitespace. -/
theorem natToCharsRev_not_space (n : Nat) :
    ∀ c ∈ natToCharsRev n, isJsSpace c = false := by
  induction n using Nat.strong_induction_on with
  | _ n ih =>
    match n with
    | 0 =>
      intro c hc
      simp [natToCharsRev] at hc
    | m + 1 =>
      intro c hc
      rw [natToCharsRev] at hc
      rcases List.mem_cons.mp hc with rfl | h
      · exact digitChar_not_space _
      · exact ih ((m + 1) / 10) (Nat.div_lt_self (Nat.succ_pos m) (by decide)) c h

/-- A positive number has at least one digit. -/
theorem natToCharsRev_ne_nil (n : Nat) (h : n ≠ 0) : natToCharsRev n ≠ [] := by
  match n with
  | m + 1 =>
    rw [natToCharsRev]
    simp

/-- Dropping a prefix by a predicate no element satisfies drops nothing. -/
theorem dropWhile_eq_self_of_not {α : Type} (p : α → Bool) (l : List α)
    (h : ∀ c ∈ l, p c = false) : l.dropWhile p = l := by
  cases l with
  | nil => rfl
  | cons a l =>
    rw [List.dropWhile_cons]
    simp [h a (List.mem_cons_self a l)]

/-- Trimming a string none of whose characters is whitespace returns it
unchanged. -/
theorem jsTrim_of_not_space (s : String) (h : ∀ c ∈ s.data, isJsSpace c = false) :
    jsTrim s = s := by
  unfold jsTrim
  rw [dropWhile_eq_self_of_not _ _ h,
    dropWhile_eq_self_of_not _ _ (fun c hc => h c (List.mem_reverse.mp hc)),
    List.reverse_reverse]

/-- No character of `natToString` is whitespace. -/
theorem natToString_not_space (n : Nat) :
    ∀ c ∈ (natToString n).data, isJsSpace c = false := by
  unfold natToString
  by_cases h : n = 0
  · simp only [h, if_true]
    intro c hc
    rcases List.mem_singleton.mp hc with rfl
    decide
  · simp only [h, if_false]
    intro c hc
    exact natToCharsRev_not_space n c (List.mem_reverse.mp hc)

/-- `natToString` is never the empty string. -/
theorem natToString_ne_nil (n : Nat) : (natToString n).data ≠ [] := by
  unfold natToString
  by_cases h : n = 0
  · simp [h]
  · simp only [h, if_false]
    intro hc
    exact natToCharsRev_ne_nil n h (by simpa using congrArg List.reverse hc)

/-- The string representation of any JS number is non-blank: it survives
trimming with a non-zero length. This is the reason the `required` check can
never fail on a numeric value. -/
theorem jsNum_toStr_trim_ne (v : JSNum) : (jsTrim v.toStr).data.length ≠ 0 := by
  cases v with
  | nan => decide
  | posInf => decide
  | negInf => decide
  | finite i =>
    show (jsTrim (if i < 0 then "-" ++ natToString i.natAbs
        else natToString i.natAbs)).data.length ≠ 0
    by_cases hneg : i < 0
    · simp only [hneg, if_true]
      rw [jsTrim_of_not_space]
      · simp [String.data_append]
      · intro c hc
        rw [String.data_append] at hc
        rcases List.mem_append.mp hc with hc | hc
        · rcases List.mem_singleton.mp hc with rfl
          decide
        · exact natToString_not_space _ c hc
    · simp only [hneg, if_false]
      rw [jsTrim_of_not_space _ (natToString_not_space _)]
      intro hlen
      exact natToString_ne_nil i.natAbs (List.length_eq_zero.mp hlen)

/-- C10: on a numeric value — any numeric value, 0 and NaN included — the
`required` check always passes (the string representation of a number is
non-blank) and the length constraints are skipped, so `validate` reduces to
exactly the `min`/`max` checks: only they can reject a numeric value. -/
theorem validate_numeric_only_min_max (n : JSNum) (req : Option Bool)
    (minL maxL : Option Int) (mn mx : Option JSNum) :
    validate { value := JSValue.num n, required := req, minLength := minL,
               maxLength := maxL, min := mn, max := mx }
      = ((match mn with | some m => JSNum.le m n | none => true) &&
         (match mx with | some m => JSNum.le n m | none => true)) := by
  have hreq : (jsTrim (JSValue.num n).toStr).length ≠ 0 := by
    have h := jsNum_toStr_trim_ne n
    simpa using h
  have hb : ((jsTrim (JSValue.num n).toStr).length != 0) = true := by
    simpa using hreq
  unfold validate isTruthy
  rcases req with _ | b
  · cases minL <;> cases maxL <;> cases mn <;> cases mx <;> simp [hreq, hb]
  · cases b <;> cases minL <;> cases maxL <;> cases mn <;> cases mx <;> simp [hreq, hb]

/-- Writing through one reference leaves every other reference's contents
unchanged. -/
theorem Heap.read_write_ne (h : Heap) (r r' : Nat) (v : List Project)
    (hne : r ≠ r') : (h.write r v).read r' = h.read r' := by
  unfold Heap.write Heap.read
  simp [List.getElem?_set_ne hne]

/-- Reading inside the original region of an extended heap. -/
theorem getD_append_of_lt {α : Type} (l l' : List α) (i : Nat) (d : α)
    (hi : i < l.length) : (l ++ l').getD i d = l.getD i d := by
  simp [List.getElem?_append_left hi]

/-- Reading the k-th freshly allocated copy. -/
theorem getD_append_replicate {α : Type} (l : List α) (n k : Nat) (v d : α)
    (hk : k < n) : (l ++ List.replicate n v).getD (l.length + k) d = v := by
  simp only [List.getD_eq_getElem?_getD]
  rw [List.getElem?_append_right (Nat.le_add_right _ _)]
  simp [Nat.add_sub_cancel_left, List.getElem?_replicate_of_lt hk]

/-- Closed form of the heap-level `updateListeners`: it appends one copy of
the registry's array per listener, and the i-th listener receives the i-th
fresh reference. -/
theorem updateListenersRefs_closed {L : Type} (h : Heap) (src : Nat) (ls : List L)
    (hsrc : src < h.cells.length) :
    (updateListenersRefs h src ls).1.cells
      = h.cells ++ List.replicate ls.length (h.read src) ∧
    (updateListenersRefs h src ls).2
      = ls.zip (List.range' h.cells.length ls.length) := by
  induction ls generalizing h with
  | nil => simp [updateListenersRefs]
  | cons fn fns ih =>
    have hsrc' : src < (Heap.mk (h.cells ++ [h.read src])).cells.length := by
      simp
      omega
    have hread : (Heap.mk (h.cells ++ [h.read src])).read src = h.read src := by
      unfold Heap.read
      exact getD_append_of_lt _ _ _ _ hsrc
    obtain ⟨h1, h2⟩ := ih (Heap.mk (h.cells ++ [h.read src])) hsrc'
    constructor
    · show (updateListenersRefs (Heap.mk (h.cells ++ [h.read src])) src fns).1.cells = _
      rw [h1, hread]
      simp [List.replicate_succ, List.append_assoc]
    · show (fn, h.cells.length)
          :: (updateListenersRefs (Heap.mk (h.cells ++ [h.read src])) src fns).2 = _
      rw [h2]
      simp [List.range'_succ]

/-- C5: after a notification round, every listener holds a reference that is
distinct from the registry's own array and carries the snapshot; writing
anything through one listener's reference changes neither the registry's
array nor what any other listener's reference holds — the received sequences
are independent defensive copies, as `slice()` provides. -/
theorem updateListeners_defensive {L : Type} (h : Heap) (src : Nat) (ls : List L)
    (hsrc : src < h.cells.length) :
    ((updateListenersRefs h src ls).1.read src = h.read src) ∧
    (∀ c ∈ (updateListenersRefs h src ls).2,
      c.2 ≠ src ∧ (updateListenersRefs h src ls).1.read c.2 = h.read src) ∧
    (∀ c ∈ (updateListenersRefs h src ls).2, ∀ v,
      ((updateListenersRefs h src ls).1.write c.2 v).read src = h.read src) ∧
    (∀ c ∈ (updateListenersRefs h src ls).2, ∀ c' ∈ (updateListenersRefs h src ls).2,
      c ≠ c' → ∀ v,
        ((updateListenersRefs h src ls).1.write c.2 v).read c'.2 = h.read src) := by
  obtain ⟨hcells, hcalls⟩ := updateListenersRefs_closed h src ls hsrc
  have hsnd : ∀ c ∈ (updateListenersRefs h src ls).2,
      h.cells.length ≤ c.2 ∧ c.2 < h.cells.length + ls.length := by
    intro c hc
    rw [hcalls] at hc
    have hmem := (List.of_mem_zip hc).2
    exact List.mem_range'_1.mp hmem
  have hne_src : ∀ c ∈ (updateListenersRefs h src ls).2, c.2 ≠ src := by
    intro c hc
    have := (hsnd c hc).1
    omega
  have hread1 : (updateListenersRefs h src ls).1.read src = h.read src := by
    unfold Heap.read
    rw [hcells]
    exact getD_append_of_lt _ _ _ _ hsrc
  have hreadc : ∀ c ∈ (updateListenersRefs h src ls).2,
      (updateListenersRefs h src ls).1.read c.2 = h.read src := by
    intro c hc
    obtain ⟨hle, hlt⟩ := hsnd c hc
    obtain ⟨k, hk, he⟩ : ∃ k, k < ls.length ∧ c.2 = h.cells.length + k :=
      ⟨c.2 - h.cells.length, by omega, by omega⟩
    unfold Heap.read
    rw [hcells, he]
    exact getD_append_replicate _ _ _ _ _ hk
  have hnodup : ((updateListenersRefs h src ls).2.map Prod.snd).Nodup := by
    rw [hcalls, List.map_snd_zip _ _ (by simp)]
    exact List.nodup_range' _ _
  refine ⟨hread1, fun c hc => ⟨hne_src c hc, hreadc c hc⟩, ?_, ?_⟩
  · intro c hc v
    rw [Heap.read_write_ne _ _ _ _ (hne_src c hc)]
    exact hread1
  · intro c hc c' hc' hne v
    have hsne : c.2 ≠ c'.2 := by
      intro he
      exact hne (List.inj_on_of_nodup_map hnodup hc hc' he)
    rw [Heap.read_write_ne _ _ _ _ hsne]
    exact hreadc c' hc'

/-- Closed instance for `updateListeners_defensive`: with one listener pair
written through, the other listener's reference still reads the original
snapshot. -/
theorem updateListeners_defensive_witness :
    0 < (Heap.mk [[demoProjectA]]).cells.length ∧
    ((updateListenersRefs (Heap.mk [[demoProjectA]]) 0 ([10, 20] : List Nat)).1.write
        1 []).read 2
      = (Heap.mk [[demoProjectA]]).read 0 :=
  ⟨by decide,
   (updateListeners_defensive (Heap.mk [[demoProjectA]]) 0 ([10, 20] : List Nat)
      (by decide)).2.2.2 (10, 1) (by decide) (20, 2) (by decide) (by decide) []⟩

end DragDrop

